import Mathlib

/-!
Verification of the WebRTC experiment-orchestration engine.

Shallow embedding of the automation layer:
  * `TestRunner` models `automation_scripts`' test runner (`TEST_CONFIG`,
    `runAllTests`, `runSingleTest`): the nested scenario loops, the
    straight-line sequence of awaited operations inside one scenario, the
    try/catch that converts a scenario failure into an error row, and the
    CSV result sink.
  * `NetworkController` models `network_control.js` (`applyConditions`,
    `reset`) as a transition on the emulated tc-qdisc state of the shared
    network path.
  * `MetricsCollector` models `metrics_collector.js`: the per-tick sample
    filtering of `collectMetrics`, the probing chains of `getLatency` /
    `getJitter` over WebRTC stats reports, the clamped cpu computation of
    `getSystemMetrics`, and the reduction performed by `stop`.

JavaScript numbers are modelled as `Rat`, machine strings as `String`.
Fallible awaited calls are driven by an explicit failure oracle: the oracle
decides, per operation, whether the underlying promise rejects and with
which message.  Operations whose implementation swallows every error
(`networkController.reset`, the sleeps, `metricsCollector.start/stop`)
cannot reject, matching the source.
-/

namespace TestRunner

/-- One scenario of the matrix: the tuple built by the nested loops of
`runAllTests` (part_002 lines 81-97). -/
structure Scenario where
  architecture : String
  numViewers : Nat
  packetLossRate : Nat
  presenterBandwidth : String
  repetition : Nat
deriving DecidableEq, Repr, Inhabited

/-- The test configuration object (part_002 lines 8-18, first copy). -/
structure TestConfig where
  architectures : List String
  numViewers : List Nat
  packetLossRates : List Nat
  presenterBandwidths : List String
  testDurationMs : Nat
  repetitions : Nat
  baseUrl : String
deriving DecidableEq, Repr

/-- `TEST_CONFIG` of part_002 lines 8-18 (first copy): the minimal
production configuration. -/
def TEST_CONFIG : TestConfig :=
  { architectures := ["P2P"]
    numViewers := [1]
    packetLossRates := [0]
    presenterBandwidths := ["5mbit"]
    testDurationMs := 15000
    repetitions := 1
    baseUrl := "http://client:3000" }

/-- The awaited operations performed by `runSingleTest` (part_002 lines
142-212), in program order. -/
inductive Op where
  | applyConditions
  | openPresenterPage
  | setupPresenter
  | openViewerPage (i : Nat)
  | setupViewer (i : Nat)
  | sleepMs (ms : Nat)
  | metricsStart
  | metricsStop
  | closePresenterPage
  | closeViewerPage (i : Nat)
  | resetImpairment
deriving DecidableEq, Repr

/-- Whether the corresponding awaited call can reject.  `sleep` is a bare
timer; `MetricsCollector.start` only installs an interval;
`MetricsCollector.stop` only computes aggregates; `NetworkController.reset`
catches every error internally (network_control.js lines 35-43).  All other
calls (tc commands via `applyConditions`, puppeteer page operations) can
reject. -/
def Op.canThrow : Op → Bool
  | .applyConditions => true
  | .openPresenterPage => true
  | .setupPresenter => true
  | .openViewerPage _ => true
  | .setupViewer _ => true
  | .sleepMs _ => false
  | .metricsStart => false
  | .metricsStop => false
  | .closePresenterPage => true
  | .closeViewerPage _ => true
  | .resetImpairment => false

/-- The viewer-provisioning loop of `runSingleTest` (lines 162-166): for
`i` from `0` to `numViewers - 1`, open a new page, then await its full
setup, before the next viewer is even opened. -/
def viewerSetupOps : Nat → List Op
  | 0 => []
  | n + 1 => viewerSetupOps n ++ [Op.openViewerPage n, Op.setupViewer n]

/-- The viewer teardown loop of `runSingleTest` (lines 186-188). -/
def viewerCloseOps : Nat → List Op
  | 0 => []
  | n + 1 => viewerCloseOps n ++ [Op.closeViewerPage n]

/-- Everything `runSingleTest` awaits before the final
`networkController.reset()` (lines 146-188), in program order. -/
def preResetOps (numViewers durationMs : Nat) : List Op :=
  [Op.applyConditions, Op.openPresenterPage, Op.setupPresenter]
    ++ viewerSetupOps numViewers
    ++ [Op.sleepMs 10000, Op.metricsStart, Op.sleepMs durationMs,
        Op.metricsStop, Op.closePresenterPage]
    ++ viewerCloseOps numViewers

/-- The full straight-line body of `runSingleTest` (lines 142-212):
apply impairment, provision presenter, provision viewers sequentially,
wait, collect metrics, close pages, reset impairment. -/
def singleTestOps (numViewers durationMs : Nat) : List Op :=
  preResetOps numViewers durationMs ++ [Op.resetImpairment]

/-- Runs a straight-line list of awaited operations under a failure
oracle.  The first operation whose promise rejects aborts the whole body
with that error (there is no try/finally in `runSingleTest`); the returned
trace holds exactly the operations that completed. -/
def runOps : List Op → (Op → Option String) → List Op × Except String Unit
  | [], _ => ([], Except.ok ())
  | op :: rest, oracle =>
    match (if op.canThrow then oracle op else none) with
    | some msg => ([], Except.error msg)
    | none =>
      let r := runOps rest oracle
      (op :: r.1, r.2)

/-- `runSingleTest` for one scenario: the completed-operation trace and
either a normal return or the propagated exception. -/
def runSingleTest (s : Scenario) (durationMs : Nat) (oracle : Op → Option String) :
    List Op × Except String Unit :=
  runOps (singleTestOps s.numViewers durationMs) oracle

/-- One row of `results.csv` (the fields the orchestration logic writes;
lines 106-123 and 193-211). -/
structure ResultRow where
  architecture : String
  numViewers : Nat
  packetLossRate : Nat
  presenterBandwidth : String
  repetition : Nat
  success : Bool
  errorMsg : String
deriving DecidableEq, Repr, Inhabited

/-- The success row built at lines 193-211. -/
def successRow (s : Scenario) : ResultRow :=
  { architecture := s.architecture, numViewers := s.numViewers
    packetLossRate := s.packetLossRate, presenterBandwidth := s.presenterBandwidth
    repetition := s.repetition, success := true, errorMsg := "" }

/-- The error row built in the catch block at lines 106-123, carrying the
thrown error's message. -/
def errorRow (s : Scenario) (msg : String) : ResultRow :=
  { architecture := s.architecture, numViewers := s.numViewers
    packetLossRate := s.packetLossRate, presenterBandwidth := s.presenterBandwidth
    repetition := s.repetition, success := false, errorMsg := msg }

/-- The row recorded for a scenario: the try/catch of `runAllTests`
(lines 90-127) turns a normal return into a success row and an exception
into an error row. -/
def rowFor (durationMs : Nat) (s : Scenario) (oracle : Op → Option String) : ResultRow :=
  match (runOps (singleTestOps s.numViewers durationMs) oracle).2 with
  | Except.ok _ => successRow s
  | Except.error msg => errorRow s msg

/-- Observable events of a whole run: completed operations of
`runSingleTest` plus the synchronous CSV row appends of `runAllTests`. -/
inductive Event where
  | op (o : Op)
  | writeRow (row : ResultRow)
deriving DecidableEq, Repr

/-- The loop body of `runAllTests` over the remaining scenarios (lines
81-135): run the scenario, append exactly one row (success or error),
sleep 5s, continue with the next scenario.  The oracle is indexed by the
scenario's position in the matrix. -/
def runMatrix (durationMs : Nat) :
    List Scenario → Nat → (Nat → Op → Option String) → List Event × List ResultRow
  | [], _, _ => ([], [])
  | s :: rest, idx, oracle =>
    let tr := (runOps (singleTestOps s.numViewers durationMs) (oracle idx)).1
    let row := rowFor durationMs s (oracle idx)
    let r := runMatrix durationMs rest (idx + 1) oracle
    (tr.map Event.op ++ Event.writeRow row :: Event.op (Op.sleepMs 5000) :: r.1,
     row :: r.2)

/-- The scenario matrix generated by the nested loops of `runAllTests`
(lines 81-85): Cartesian product of the four dimension lists with the
repetition counter running from 1 to `repetitions`. -/
def scenarios (cfg : TestConfig) : List Scenario :=
  cfg.architectures.flatMap fun architecture =>
    cfg.numViewers.flatMap fun numViewers =>
      cfg.packetLossRates.flatMap fun packetLossRate =>
        cfg.presenterBandwidths.flatMap fun presenterBandwidth =>
          (List.range cfg.repetitions).map fun rep =>
            { architecture := architecture, numViewers := numViewers
              packetLossRate := packetLossRate
              presenterBandwidth := presenterBandwidth
              repetition := rep + 1 }

/-- `runAllTests` (lines 71-140): drive the whole matrix, producing the
event trace and the ordered list of recorded rows. -/
def runAllTests (cfg : TestConfig) (oracle : Nat → Op → Option String) :
    List Event × List ResultRow :=
  runMatrix cfg.testDurationMs (scenarios cfg) 0 oracle

/-- Modelled from the spec (§4.1): fixed mode of the Scenario Matrix
Generator — "accepts an explicit ordered list of scenario tuples" and
outputs exactly that list.  No fixed-mode generator exists under src/
(the runner only implements the Cartesian nested loops), so this
definition follows the spec's words. -/
def fixedModeScenarios (explicitList : List Scenario) : List Scenario :=
  explicitList

end TestRunner

namespace NetworkController

/-- The netem/tbf rules installed on the shared path by `applyConditions`
(network_control.js lines 9-33). -/
structure TcRules where
  latency : String
  lossPercent : Nat
  tbfRate : Option String
deriving DecidableEq, Repr

/-- State of the emulated network path: `none` when no root qdisc is
installed. -/
def TcState := Option TcRules
deriving DecidableEq, Repr

/-- `applyConditions(bandwidth, packetLoss, latency)` (lines 9-33).  The
first command deletes any existing root qdisc; its trailing shell
disjunction with true makes it succeed unconditionally, so the path is
always cleared before anything new is installed.  The two `tc qdisc add`
commands may fail (the error is rethrown); the oracle gives command `1`
(netem) and command `2` (tbf) their outcome. -/
def applyConditions (st : TcState) (bandwidth : String) (packetLoss : Nat)
    (latency : String) (fail : Nat → Option String) : TcState × Except String Unit :=
  -- command 0: tc qdisc del … ∥ true (always succeeds, clears the path)
  let _ := st
  let cleared : TcState := none
  -- command 1: tc qdisc add … netem delay latency loss packetLoss%
  match fail 1 with
  | some msg => (cleared, Except.error msg)
  | none =>
    let netemOnly : TcState := some { latency := latency, lossPercent := packetLoss, tbfRate := none }
    if bandwidth ≠ "unlimited" then
      -- command 2: tc qdisc add … tbf rate bandwidth
      match fail 2 with
      | some msg => (netemOnly, Except.error msg)
      | none =>
        (some { latency := latency, lossPercent := packetLoss, tbfRate := some bandwidth },
         Except.ok ())
    else
      (netemOnly, Except.ok ())

/-- `reset()` (lines 35-43): deletes the root qdisc; the delete command
cannot fail (trailing shell disjunction with true) and the surrounding
try/catch swallows any error, so `reset` always clears the path and never
raises. -/
def reset (st : TcState) : TcState × Except String Unit :=
  let _ := st
  (none, Except.ok ())

end NetworkController

namespace MetricsCollector

/-- Raw sample series accumulated by the collector (constructor,
metrics_collector.js lines 4-21).  Only the sample lists and timestamps
are state; the aggregate fields initialized in the constructor (cpu
average 0, max 0, min 100; all-zero aggregates elsewhere) are folded into
`stop` below, which is where they are read. -/
structure MetricsState where
  cpuSamples : List Rat
  memorySamples : List Rat
  bandwidthSamples : List Rat
  latencySamples : List Rat
  jitterSamples : List Rat
  packetsLostSamples : List Rat
  timestamps : List Nat
deriving DecidableEq, Repr

/-- The freshly constructed collector: every series empty. -/
def initialState : MetricsState :=
  { cpuSamples := [], memorySamples := [], bandwidthSamples := []
    latencySamples := [], jitterSamples := [], packetsLostSamples := []
    timestamps := [] }

/-- The values the probes return on one collection tick: the optional
(cpu, memory) pair from `getSystemMetrics` (null on error or missing
TaskDuration), the bandwidth estimate, and one latency / jitter /
packetsLost reading per viewer page (each probe catches its own errors
and yields a number). -/
structure TickReadings where
  timestamp : Nat
  system : Option (Rat × Rat)
  bandwidthUsage : Rat
  latencyReads : List Rat
  jitterReads : List Rat
  packetsLostReads : List Rat
deriving DecidableEq, Repr

/-- `collectMetrics` (lines 32-80): push the timestamp, keep the system
pair when present, keep bandwidth only when strictly positive, keep each
latency and jitter reading only when strictly positive, and keep each
packetsLost reading whenever it is nonnegative. -/
def collectMetrics (st : MetricsState) (r : TickReadings) : MetricsState :=
  { timestamps := st.timestamps ++ [r.timestamp]
    cpuSamples := st.cpuSamples ++ (match r.system with
      | some (c, _) => [c]
      | none => [])
    memorySamples := st.memorySamples ++ (match r.system with
      | some (_, m) => [m]
      | none => [])
    bandwidthSamples := st.bandwidthSamples ++
      (if 0 < r.bandwidthUsage then [r.bandwidthUsage] else [])
    latencySamples := st.latencySamples ++ r.latencyReads.filter (fun x => decide (0 < x))
    jitterSamples := st.jitterSamples ++ r.jitterReads.filter (fun x => decide (0 < x))
    packetsLostSamples := st.packetsLostSamples ++
      r.packetsLostReads.filter (fun x => decide (0 ≤ x)) }

/-- `getSystemMetrics` (lines 82-120).  Arguments: the stored
`lastMetrics` baseline (taskDuration, time), the current page metrics
(`TaskDuration` when defined, the wall clock, the JS heap size when
defined).  Returns the optional (cpu, memoryMb) pair and the new
baseline.  The raw percentage is clamped into [0, 100]; the first
measurement stores the baseline and reports cpu 0. -/
def getSystemMetrics (last : Option (Rat × Rat)) (taskDuration : Option Rat)
    (timeMs : Rat) (heapBytes : Option Rat) :
    Option (Rat × Rat) × Option (Rat × Rat) :=
  match taskDuration with
  | none => (none, last)
  | some td =>
    let memory : Rat := match heapBytes with
      | some h => h / (1024 * 1024)
      | none => 0
    match last with
    | some (lastTd, lastTime) =>
      let timeDiffSeconds := (timeMs - lastTime) / 1000
      let cpuPercentage := (td - lastTd) / timeDiffSeconds * 100
      (some (min 100 (max 0 cpuPercentage), memory), some (td, timeMs))
    | none =>
      (some (0, memory), some (td, timeMs))

/-- Sum of a sample series (the reduce at lines 587, 594, 600, …). -/
def listSum : List Rat → Rat
  | [] => 0
  | x :: xs => x + listSum xs

/-- Maximum of a nonempty series (the spread into Math.max); 0 on the
empty list, where the code never calls it. -/
def listMax : List Rat → Rat
  | [] => 0
  | x :: xs => xs.foldl max x

/-- Minimum of a nonempty series (the spread into Math.min); 0 on the
empty list, where the code never calls it. -/
def listMin : List Rat → Rat
  | [] => 0
  | x :: xs => xs.foldl min x

/-- An (average, min, max) aggregate as returned by `stop`. -/
structure Agg3 where
  average : Rat
  min : Rat
  max : Rat
deriving DecidableEq, Repr

/-- The object returned by `stop` (lines 623-656). -/
structure StopResult where
  cpu : Agg3
  memoryAverage : Rat
  memoryMax : Rat
  bandwidthTotal : Rat
  bandwidthPeak : Rat
  bandwidthAverage : Rat
  latency : Agg3
  jitter : Agg3
  packetsLostTotal : Rat
  sampleCount : Nat
  duration : Nat
deriving DecidableEq, Repr

/-- `stop` (lines 578-657): reduce each series to its aggregates when it
is nonempty; otherwise the constructor's initial aggregate values survive
(cpu min 100, everything else 0).  `sampleCount` is the number of
collection ticks. -/
def stop (st : MetricsState) : StopResult :=
  { cpu :=
      if st.cpuSamples = [] then { average := 0, min := 100, max := 0 }
      else
        { average := listSum st.cpuSamples / (st.cpuSamples.length : Rat)
          min := listMin st.cpuSamples
          max := listMax st.cpuSamples }
    memoryAverage :=
      if st.memorySamples = [] then 0
      else listSum st.memorySamples / (st.memorySamples.length : Rat)
    memoryMax := if st.memorySamples = [] then 0 else listMax st.memorySamples
    bandwidthTotal := if st.bandwidthSamples = [] then 0 else listSum st.bandwidthSamples
    bandwidthPeak := if st.bandwidthSamples = [] then 0 else listMax st.bandwidthSamples
    bandwidthAverage :=
      if st.bandwidthSamples = [] then 0
      else listSum st.bandwidthSamples / (st.bandwidthSamples.length : Rat)
    latency :=
      if st.latencySamples = [] then { average := 0, min := 0, max := 0 }
      else
        { average := listSum st.latencySamples / (st.latencySamples.length : Rat)
          min := listMin st.latencySamples
          max := listMax st.latencySamples }
    jitter :=
      if st.jitterSamples = [] then { average := 0, min := 0, max := 0 }
      else
        { average := listSum st.jitterSamples / (st.jitterSamples.length : Rat)
          min := listMin st.jitterSamples
          max := listMax st.jitterSamples }
    packetsLostTotal :=
      if st.packetsLostSamples = [] then 0 else listSum st.packetsLostSamples
    sampleCount := st.timestamps.length
    duration := st.timestamps.getLastD 0 }

/-- One WebRTC stats report, restricted to the fields the probes read. -/
structure StatsReport where
  type : String
  roundTripTime : Option Rat := none
  currentRoundTripTime : Option Rat := none
  state : Option String := none
  jitter : Option Rat := none
  jitterBufferDelay : Option Rat := none
  packetsReceived : Option Rat := none
  mediaType : Option String := none
  kind : Option String := none
deriving DecidableEq, Repr

/-- The presenter page's exposed objects that `getLatency`/`getJitter`
query: its mediasoup send transport's stats, when the transport exists
(relay architecture only). -/
structure PresenterEnv where
  mediasoupSendTransport : Option (List StatsReport)
deriving DecidableEq, Repr

/-- The stats visible on one viewer page: each entry is one connection's
(or consumer's / transport's) report list. -/
structure ViewerEnv where
  allPeerConnections : List (List StatsReport)
  mediasoupConsumers : List (List StatsReport)
  mediasoupTransports : List (List StatsReport)
deriving DecidableEq, Repr

/-- The presenter-side probe of `getLatency` (lines 157-179): when the
presenter owns a mediasoup send transport, scan its stats for the first
remote-inbound-rtp report with a round-trip time and convert it to
milliseconds; otherwise evaluate to null. -/
def presenterLatencyProbe (p : PresenterEnv) : Option Rat :=
  match p.mediasoupSendTransport with
  | none => none
  | some reports =>
    reports.findSome? fun r =>
      if r.type = "remote-inbound-rtp" then r.roundTripTime.map (· * 1000)
      else none

/-- One peer connection's scan inside the viewer fallback of `getLatency`
(lines 193-217): remote-inbound-rtp round-trip time, else a succeeded
candidate-pair's current round-trip time, in milliseconds. -/
def pcLatency (reports : List StatsReport) : Option Rat :=
  reports.findSome? fun r =>
    if r.type = "remote-inbound-rtp" then r.roundTripTime.map (· * 1000)
    else if r.type = "candidate-pair" ∧ r.state = some "succeeded" then
      r.currentRoundTripTime.map (· * 1000)
    else none

/-- One mediasoup consumer's scan (lines 220-250): remote-outbound-rtp
round-trip time, else inbound-rtp round-trip time. -/
def consumerLatency (reports : List StatsReport) : Option Rat :=
  reports.findSome? fun r =>
    if r.type = "remote-outbound-rtp" then r.roundTripTime.map (· * 1000)
    else if r.type = "inbound-rtp" then r.roundTripTime.map (· * 1000)
    else none

/-- One mediasoup transport's scan (lines 253-283): remote-inbound-rtp
round-trip time, else a succeeded candidate-pair's current round-trip
time. -/
def transportLatency (reports : List StatsReport) : Option Rat :=
  reports.findSome? fun r =>
    if r.type = "remote-inbound-rtp" then r.roundTripTime.map (· * 1000)
    else if r.type = "candidate-pair" ∧ r.state = some "succeeded" then
      r.currentRoundTripTime.map (· * 1000)
    else none

/-- The viewer-side fallback chain of `getLatency` (lines 191-287): peer
connections, then mediasoup consumers, then mediasoup transports, else
0. -/
def viewerLatencyProbe (v : ViewerEnv) : Rat :=
  match v.allPeerConnections.findSome? pcLatency with
  | some x => x
  | none =>
    match v.mediasoupConsumers.findSome? consumerLatency with
    | some x => x
    | none =>
      match v.mediasoupTransports.findSome? transportLatency with
      | some x => x
      | none => 0

/-- `getLatency` (lines 152-292): always ask the presenter's own send
transport first; a strictly positive presenter-to-relay round-trip time
wins, anything else falls back to the viewer-side chain. -/
def getLatency (p : PresenterEnv) (v : ViewerEnv) : Rat :=
  match presenterLatencyProbe p with
  | some rtt => if 0 < rtt then rtt else viewerLatencyProbe v
  | none => viewerLatencyProbe v

/-- One report's jitter extraction (lines 320-335 and the consumer and
transport duplicates): an inbound-rtp video report's direct jitter (in
milliseconds), else its jitter-buffer estimate when packets were
received.  The consumer variant matches on `kind`, the others on
`mediaType`. -/
def reportJitter (videoField : StatsReport → Option String) (r : StatsReport) : Option Rat :=
  if r.type = "inbound-rtp" ∧ videoField r = some "video" then
    match r.jitter with
    | some j => some (j * 1000)
    | none =>
      match r.jitterBufferDelay, r.packetsReceived with
      | some jbd, some pr => if 0 < pr then some (jbd * 1000 / pr) else none
      | _, _ => none
  else none

/-- The viewer-side chain of `getJitter` (lines 312-417): peer
connections (mediaType), then consumers (kind), then transports
(mediaType), else 0. -/
def viewerJitterProbe (v : ViewerEnv) : Rat :=
  match v.allPeerConnections.findSome? (fun rs => rs.findSome? (reportJitter StatsReport.mediaType)) with
  | some x => x
  | none =>
    match v.mediasoupConsumers.findSome? (fun rs => rs.findSome? (reportJitter StatsReport.kind)) with
    | some x => x
    | none =>
      match v.mediasoupTransports.findSome? (fun rs => rs.findSome? (reportJitter StatsReport.mediaType)) with
      | some x => x
      | none => 0

/-- `getJitter` (lines 294-422): in relay (SFU) mode — detected by the
presenter owning a mediasoup send transport — jitter is reported as 0
(not measured on the sending side); otherwise the viewer chain runs. -/
def getJitter (p : PresenterEnv) (v : ViewerEnv) : Rat :=
  if p.mediasoupSendTransport.isSome then 0
  else viewerJitterProbe v

end MetricsCollector

namespace TestRunner

/-- Recognizes the impairment-application operation. -/
def isApplyOp : Op → Bool
  | .applyConditions => true
  | _ => false

/-- Recognizes the impairment-release operation. -/
def isResetOp : Op → Bool
  | .resetImpairment => true
  | _ => false

/-- Recognizes a page-teardown operation. -/
def isCloseOp : Op → Bool
  | .closePresenterPage => true
  | .closeViewerPage _ => true
  | _ => false

/-- Recognizes the presenter-provisioning page open. -/
def isOpenPresenterOp : Op → Bool
  | .openPresenterPage => true
  | _ => false

/-- Event-level views of the operation predicates. -/
def isApplyEv : Event → Bool
  | .op o => isApplyOp o
  | _ => false

/-- Recognizes a result-sink append in the run trace. -/
def isWriteEv : Event → Bool
  | .writeRow _ => true
  | _ => false

/-- Event-level view of `isResetOp`. -/
def isResetEv : Event → Bool
  | .op o => isResetOp o
  | _ => false

/-- Event-level view of `isCloseOp`. -/
def isCloseEv : Event → Bool
  | .op o => isCloseOp o
  | _ => false

/-- Event-level view of `isOpenPresenterOp`. -/
def isOpenPresenterEv : Event → Bool
  | .op o => isOpenPresenterOp o
  | _ => false

/-- Scanning check that a result row is appended between any impairment
application and the next one: `pending` records that an impairment was
applied with no row written since. -/
def rowBeforeNextApplyB : Bool → List Event → Bool
  | _, [] => true
  | pending, e :: rest =>
    if isApplyEv e then
      if pending then false else rowBeforeNextApplyB true rest
    else if isWriteEv e then rowBeforeNextApplyB false rest
    else rowBeforeNextApplyB pending rest

theorem runOps_countP_le (p : Op → Bool) (ops : List Op) (oracle : Op → Option String) :
    ((runOps ops oracle).1).countP p ≤ ops.countP p := by
  induction ops with
  | nil => simp [runOps]
  | cons op rest ih =>
    cases hc : (if op.canThrow then oracle op else none) with
    | some msg => simp [runOps, hc]
    | none =>
      simp only [runOps, hc, List.countP_cons]
      exact Nat.add_le_add_right ih _

theorem runOps_ok_trace (ops : List Op) (oracle : Op → Option String)
    (h : (runOps ops oracle).2 = Except.ok ()) : (runOps ops oracle).1 = ops := by
  induction ops with
  | nil => simp [runOps]
  | cons op rest ih =>
    cases hc : (if op.canThrow then oracle op else none) with
    | some msg => simp [runOps, hc] at h
    | none =>
      simp only [runOps, hc] at h ⊢
      simpa using ih (by simpa using h)

theorem runOps_append (a b : List Op) (oracle : Op → Option String) :
    runOps (a ++ b) oracle =
      match (runOps a oracle).2 with
      | Except.error m => ((runOps a oracle).1, Except.error m)
      | Except.ok _ => ((runOps a oracle).1 ++ (runOps b oracle).1, (runOps b oracle).2) := by
  induction a with
  | nil => simp [runOps]
  | cons op rest ih =>
    cases hc : (if op.canThrow then oracle op else none) with
    | some msg => simp [runOps, hc]
    | none =>
      cases h2 : (runOps rest oracle).2 with
      | error m => simp [runOps, hc, ih, h2]
      | ok u => simp [runOps, hc, ih, h2]

theorem countP_viewerSetupOps (p : Op → Bool)
    (h1 : ∀ i, p (Op.openViewerPage i) = false)
    (h2 : ∀ i, p (Op.setupViewer i) = false) :
    ∀ n, (viewerSetupOps n).countP p = 0 := by
  intro n
  induction n with
  | zero => simp [viewerSetupOps]
  | succ n ih => simp [viewerSetupOps, List.countP_append, ih, List.countP_cons, h1, h2]

theorem countP_viewerCloseOps (p : Op → Bool)
    (h1 : ∀ i, p (Op.closeViewerPage i) = false) :
    ∀ n, (viewerCloseOps n).countP p = 0 := by
  intro n
  induction n with
  | zero => simp [viewerCloseOps]
  | succ n ih => simp [viewerCloseOps, List.countP_append, ih, List.countP_cons, h1]

theorem countApply_preResetOps (n dur : Nat) : (preResetOps n dur).countP isApplyOp = 1 := by
  simp [preResetOps, List.countP_append, List.countP_cons,
    countP_viewerSetupOps isApplyOp (fun _ => rfl) (fun _ => rfl),
    countP_viewerCloseOps isApplyOp (fun _ => rfl), isApplyOp]

theorem countApply_singleTestOps (n dur : Nat) : (singleTestOps n dur).countP isApplyOp = 1 := by
  simp [singleTestOps, List.countP_append, countApply_preResetOps, List.countP_cons, isApplyOp]

theorem countReset_preResetOps (n dur : Nat) : (preResetOps n dur).countP isResetOp = 0 := by
  simp [preResetOps, List.countP_append, List.countP_cons,
    countP_viewerSetupOps isResetOp (fun _ => rfl) (fun _ => rfl),
    countP_viewerCloseOps isResetOp (fun _ => rfl), isResetOp]

theorem countClose_frontOps (n dur : Nat) :
    ([Op.applyConditions, Op.openPresenterPage, Op.setupPresenter]
        ++ viewerSetupOps n
        ++ [Op.sleepMs 10000, Op.metricsStart, Op.sleepMs dur]).countP isCloseOp = 0 := by
  simp [List.countP_append, List.countP_cons,
    countP_viewerSetupOps isCloseOp (fun _ => rfl) (fun _ => rfl), isCloseOp]

/-- The trace of one scenario body contains the impairment-release
operation exactly when the body ran to completion. -/
theorem countReset_trace (n dur : Nat) (oracle : Op → Option String) :
    ((runOps (singleTestOps n dur) oracle).1).countP isResetOp
      = match (runOps (singleTestOps n dur) oracle).2 with
        | Except.ok _ => 1
        | Except.error _ => 0 := by
  have happ := runOps_append (preResetOps n dur) [Op.resetImpairment] oracle
  have hsingle : singleTestOps n dur = preResetOps n dur ++ [Op.resetImpairment] := rfl
  rw [hsingle, happ]
  cases h2 : (runOps (preResetOps n dur) oracle).2 with
  | error m =>
    have hle := runOps_countP_le isResetOp (preResetOps n dur) oracle
    rw [countReset_preResetOps] at hle
    simp only []
    omega
  | ok u =>
    cases u
    have htr : (runOps (preResetOps n dur) oracle).1 = preResetOps n dur :=
      runOps_ok_trace _ _ h2
    have hrst : runOps [Op.resetImpairment] oracle = ([Op.resetImpairment], Except.ok ()) := by
      simp [runOps, Op.canThrow]
    simp [htr, hrst, List.countP_append, countReset_preResetOps, List.countP_cons, isResetOp]

theorem countP_map_op (p : Event → Bool) (q : Op → Bool)
    (hpq : ∀ o, p (Event.op o) = q o) (l : List Op) :
    (l.map Event.op).countP p = l.countP q := by
  induction l with
  | nil => simp
  | cons o rest ih => simp [List.countP_cons, ih, hpq]

theorem scan_ops_noApply (l : List Op) (h : l.countP isApplyOp = 0) :
    ∀ (b : Bool) (rest : List Event),
      rowBeforeNextApplyB b (l.map Event.op ++ rest) = rowBeforeNextApplyB b rest := by
  induction l with
  | nil => intro b rest; simp
  | cons o tail ih =>
    intro b rest
    rw [List.countP_cons] at h
    have ho : isApplyOp o = false := by
      by_contra hq
      rw [Bool.not_eq_false] at hq
      rw [hq] at h
      simp at h
    have htail : tail.countP isApplyOp = 0 := by
      rw [ho] at h
      simpa using h
    have hA : isApplyEv (Event.op o) = false := by simp [isApplyEv, ho]
    have hW : isWriteEv (Event.op o) = false := by simp [isWriteEv]
    simp only [List.map_cons, List.cons_append, rowBeforeNextApplyB, hA, hW]
    simp only [Bool.false_eq_true, if_false]
    exact ih htail b rest

theorem scan_ops_block (l : List Op) (h : l.countP isApplyOp ≤ 1) (row : ResultRow)
    (rest : List Event) :
    rowBeforeNextApplyB false (l.map Event.op ++ Event.writeRow row :: rest)
      = rowBeforeNextApplyB false rest := by
  induction l with
  | nil => simp [rowBeforeNextApplyB, isApplyEv, isWriteEv]
  | cons o tail ih =>
    rw [List.countP_cons] at h
    cases ho : isApplyOp o with
    | false =>
      have htail : tail.countP isApplyOp ≤ 1 := by rw [ho] at h; omega
      have hA : isApplyEv (Event.op o) = false := by simp [isApplyEv, ho]
      have hW : isWriteEv (Event.op o) = false := by simp [isWriteEv]
      simp only [List.map_cons, List.cons_append, rowBeforeNextApplyB, hA, hW]
      simp only [Bool.false_eq_true, if_false]
      exact ih htail
    | true =>
      have htail : tail.countP isApplyOp = 0 := by
        rw [ho, if_pos rfl] at h
        omega
      have hA : isApplyEv (Event.op o) = true := by simp [isApplyEv, ho]
      simp only [List.map_cons, List.cons_append, rowBeforeNextApplyB, hA]
      simp only [if_true, Bool.false_eq_true, if_false]
      exact (scan_ops_noApply tail htail true (Event.writeRow row :: rest)).trans
        (by simp [rowBeforeNextApplyB, isApplyEv, isWriteEv])

/-- The rows list of the matrix loop has one entry per scenario. -/
theorem runMatrix_rows_length (durationMs : Nat) :
    ∀ (l : List Scenario) (idx : Nat) (oracle : Nat → Op → Option String),
      ((runMatrix durationMs l idx oracle).2).length = l.length := by
  intro l
  induction l with
  | nil => intro idx oracle; simp [runMatrix]
  | cons s rest ih => intro idx oracle; simp [runMatrix, ih]

/-- The trace of the matrix loop has one sink append per scenario. -/
theorem runMatrix_countW (durationMs : Nat) :
    ∀ (l : List Scenario) (idx : Nat) (oracle : Nat → Op → Option String),
      ((runMatrix durationMs l idx oracle).1).countP isWriteEv = l.length := by
  intro l
  induction l with
  | nil => intro idx oracle; simp [runMatrix]
  | cons s rest ih =>
    intro idx oracle
    simp only [runMatrix, List.countP_append, List.countP_cons]
    rw [countP_map_op isWriteEv (fun _ => false) (fun _ => rfl), ih]
    simp [isWriteEv]

/-- In the matrix loop's trace, a row is always appended before the next
impairment application. -/
theorem runMatrix_scanOk (durationMs : Nat) :
    ∀ (l : List Scenario) (idx : Nat) (oracle : Nat → Op → Option String),
      rowBeforeNextApplyB false ((runMatrix durationMs l idx oracle).1) = true := by
  intro l
  induction l with
  | nil => intro idx oracle; simp [runMatrix, rowBeforeNextApplyB]
  | cons s rest ih =>
    intro idx oracle
    have hle : ((runOps (singleTestOps s.numViewers durationMs) (oracle idx)).1).countP isApplyOp ≤ 1 := by
      have := runOps_countP_le isApplyOp (singleTestOps s.numViewers durationMs) (oracle idx)
      rw [countApply_singleTestOps] at this
      exact this
    simp only [runMatrix]
    rw [scan_ops_block _ hle]
    have hA : isApplyEv (Event.op (Op.sleepMs 5000)) = false := rfl
    have hW : isWriteEv (Event.op (Op.sleepMs 5000)) = false := rfl
    simp only [rowBeforeNextApplyB, hA, hW]
    simp only [Bool.false_eq_true, if_false]
    exact ih (idx + 1) oracle

/-- The matrix loop's trace contains exactly one impairment release per
successful scenario and none for a failed one. -/
theorem runMatrix_countReset (durationMs : Nat) :
    ∀ (l : List Scenario) (idx : Nat) (oracle : Nat → Op → Option String),
      ((runMatrix durationMs l idx oracle).1).countP isResetEv
        = (((runMatrix durationMs l idx oracle).2).filter (fun r => r.success)).length := by
  intro l
  induction l with
  | nil => intro idx oracle; simp [runMatrix]
  | cons s rest ih =>
    intro idx oracle
    simp only [runMatrix, List.countP_append, List.countP_cons, List.filter_cons]
    rw [countP_map_op isResetEv isResetOp (fun _ => rfl), countReset_trace]
    rw [ih (idx + 1) oracle]
    have hsleep : isResetEv (Event.op (Op.sleepMs 5000)) = false := rfl
    have hwr : isResetEv (Event.writeRow (rowFor durationMs s (oracle idx))) = false := rfl
    cases h2 : (runOps (singleTestOps s.numViewers durationMs) (oracle idx)).2 with
    | ok u =>
      have hrow : (rowFor durationMs s (oracle idx)).success = true := by
        simp [rowFor, h2, successRow]
      simp [hrow, hsleep, hwr]
      omega
    | error m =>
      have hrow : (rowFor durationMs s (oracle idx)).success = false := by
        simp [rowFor, h2, errorRow]
      simp [hrow, hsleep, hwr]

/-- Each recorded row is the row the try/catch builds for its scenario,
under that scenario's oracle. -/
theorem runMatrix_rows_get (durationMs : Nat) :
    ∀ (l : List Scenario) (idx : Nat) (oracle : Nat → Op → Option String) (i : Nat),
      i < l.length →
      ((runMatrix durationMs l idx oracle).2).getD i default
        = rowFor durationMs (l.getD i default) (oracle (idx + i)) := by
  intro l
  induction l with
  | nil => intro idx oracle i h; simp at h
  | cons s rest ih =>
    intro idx oracle i hi
    cases i with
    | zero => simp [runMatrix]
    | succ j =>
      have hj : j < rest.length := by
        simp only [List.length_cons] at hi
        omega
      simp only [runMatrix, List.getD_cons_succ]
      rw [ih (idx + 1) oracle j hj]
      have harg : idx + 1 + j = idx + (j + 1) := by omega
      rw [harg]

theorem length_flatMap_const {α β : Type} (l : List α) (f : α → List β) (c : Nat)
    (h : ∀ a ∈ l, (f a).length = c) : (l.flatMap f).length = l.length * c := by
  induction l with
  | nil => simp
  | cons a rest ih =>
    simp only [List.flatMap_cons, List.length_append, List.length_cons]
    rw [h a (by simp), ih (fun b hb => h b (by simp [hb]))]
    ring

/-- The matrix built by the nested loops has the Cartesian size. -/
theorem scenarios_length (cfg : TestConfig) :
    (scenarios cfg).length
      = cfg.architectures.length * cfg.numViewers.length * cfg.packetLossRates.length
        * cfg.presenterBandwidths.length * cfg.repetitions := by
  have h3 : ∀ (architecture : String) (numViewers packetLossRate : Nat),
      ((cfg.presenterBandwidths.flatMap fun presenterBandwidth =>
          (List.range cfg.repetitions).map fun rep =>
            ({ architecture := architecture, numViewers := numViewers
               packetLossRate := packetLossRate
               presenterBandwidth := presenterBandwidth
               repetition := rep + 1 } : Scenario))).length
        = cfg.presenterBandwidths.length * cfg.repetitions := by
    intro architecture numViewers packetLossRate
    exact length_flatMap_const _ _ _ (fun b _ => by simp)
  have h2 : ∀ (architecture : String) (numViewers : Nat),
      ((cfg.packetLossRates.flatMap fun packetLossRate =>
          cfg.presenterBandwidths.flatMap fun presenterBandwidth =>
            (List.range cfg.repetitions).map fun rep =>
              ({ architecture := architecture, numViewers := numViewers
                 packetLossRate := packetLossRate
                 presenterBandwidth := presenterBandwidth
                 repetition := rep + 1 } : Scenario))).length
        = cfg.packetLossRates.length * (cfg.presenterBandwidths.length * cfg.repetitions) := by
    intro architecture numViewers
    exact length_flatMap_const _ _ _
      (fun p _ => (h3 architecture numViewers p).trans rfl)
  have h1 : ∀ (architecture : String),
      ((cfg.numViewers.flatMap fun numViewers =>
          cfg.packetLossRates.flatMap fun packetLossRate =>
            cfg.presenterBandwidths.flatMap fun presenterBandwidth =>
              (List.range cfg.repetitions).map fun rep =>
                ({ architecture := architecture, numViewers := numViewers
                   packetLossRate := packetLossRate
                   presenterBandwidth := presenterBandwidth
                   repetition := rep + 1 } : Scenario))).length
        = cfg.numViewers.length
          * (cfg.packetLossRates.length * (cfg.presenterBandwidths.length * cfg.repetitions)) := by
    intro architecture
    exact length_flatMap_const _ _ _ (fun v _ => h2 architecture v)
  have h0 : (scenarios cfg).length
      = cfg.architectures.length
        * (cfg.numViewers.length
            * (cfg.packetLossRates.length * (cfg.presenterBandwidths.length * cfg.repetitions))) := by
    rw [scenarios]
    exact length_flatMap_const _ _ _ (fun a _ => h1 a)
  rw [h0]
  ring

/-- C4: for every configuration, the number of scenarios executed and
counted by `runAllTests` equals the Cartesian product of the dimension
list sizes times `repetitions`; the (spec-modelled) fixed mode yields
exactly the explicit input list. -/
theorem c4_scenario_count (cfg : TestConfig) (oracle : Nat → Op → Option String)
    (explicitList : List Scenario) :
    ((runAllTests cfg oracle).2.length
        = cfg.architectures.length * cfg.numViewers.length * cfg.packetLossRates.length
          * cfg.presenterBandwidths.length * cfg.repetitions)
    ∧ ((scenarios cfg).length
        = cfg.architectures.length * cfg.numViewers.length * cfg.packetLossRates.length
          * cfg.presenterBandwidths.length * cfg.repetitions)
    ∧ (fixedModeScenarios explicitList).length = explicitList.length := by
  refine ⟨?_, scenarios_length cfg, rfl⟩
  rw [runAllTests, runMatrix_rows_length, scenarios_length]

/-- C1: for every configuration and failure oracle, `runAllTests` records
exactly one result row per scenario, the failure case carrying the thrown
error's message; each row is appended to the sink before the next
scenario's impairment is applied; and a scenario's failure never removes
the remaining scenarios' rows from the run. -/
theorem c1_one_row_per_scenario (cfg : TestConfig) (oracle : Nat → Op → Option String) :
    ((runAllTests cfg oracle).2.length = (scenarios cfg).length)
    ∧ ((runAllTests cfg oracle).1.countP isWriteEv = (scenarios cfg).length)
    ∧ (rowBeforeNextApplyB false (runAllTests cfg oracle).1 = true)
    ∧ (∀ i, i < (scenarios cfg).length →
        (runAllTests cfg oracle).2.getD i default
          = rowFor cfg.testDurationMs ((scenarios cfg).getD i default) (oracle i))
    ∧ (∀ (s : Scenario) (oc : Op → Option String) (msg : String),
        (runOps (singleTestOps s.numViewers cfg.testDurationMs) oc).2 = Except.error msg →
        rowFor cfg.testDurationMs s oc = errorRow s msg
          ∧ (errorRow s msg).errorMsg = msg ∧ (errorRow s msg).success = false) := by
  refine ⟨runMatrix_rows_length _ _ _ _, runMatrix_countW _ _ _ _,
    runMatrix_scanOk _ _ _ _, ?_, ?_⟩
  · intro i hi
    have := runMatrix_rows_get cfg.testDurationMs (scenarios cfg) 0 oracle i hi
    simpa using this
  · intro s oc msg h
    exact ⟨by simp [rowFor, h], rfl, rfl⟩

/-- Concrete instance of C1: under the production configuration with a
first-scenario presenter failure, the single recorded row is the error
row carrying the message, appended before anything else follows. -/
theorem c1_one_row_per_scenario_witness :
    (0 < (scenarios TEST_CONFIG).length)
    ∧ ((runAllTests TEST_CONFIG (fun _ _ => none)).2.getD 0 default
        = rowFor TEST_CONFIG.testDurationMs ((scenarios TEST_CONFIG).getD 0 default)
            ((fun (_ : Nat) (_ : Op) => (none : Option String)) 0)) :=
  ⟨by decide,
   (c1_one_row_per_scenario TEST_CONFIG (fun _ _ => none)).2.2.2.1 0 (by decide)⟩

/-- Failure oracle making presenter provisioning reject in every
scenario. -/
def failPresenterOracle : Nat → Op → Option String :=
  fun _ op =>
    match op with
    | Op.setupPresenter => some "Connection timeout"
    | _ => none

/-- C2 counterexample: under the production configuration, when the
single scenario's presenter provisioning fails, the scenario's row is a
failure row and the run's trace contains no impairment release at all —
`reset()` was not invoked once per scenario. -/
theorem c2_counterexample :
    ((runAllTests TEST_CONFIG failPresenterOracle).2.getD 0 default).success = false
    ∧ (runAllTests TEST_CONFIG failPresenterOracle).1.countP isResetEv = 0
    ∧ (runAllTests TEST_CONFIG failPresenterOracle).2.length = 1 := by
  decide

/-- C2 (amended): across every configuration and failure oracle, the
impairment release runs exactly once per successful scenario and zero
times for a failed scenario (it is skipped on every abnormal exit path);
`NetworkController.reset` itself never raises and clears the path, so a
second reset is a safe no-op. -/
theorem c2_reset_only_on_success (cfg : TestConfig) (oracle : Nat → Op → Option String) :
    ((runAllTests cfg oracle).1.countP isResetEv
        = ((runAllTests cfg oracle).2.filter (fun r => r.success)).length)
    ∧ (∀ st : NetworkController.TcState,
        NetworkController.reset st = (none, Except.ok ()))
    ∧ NetworkController.reset (NetworkController.reset none).1
        = NetworkController.reset none :=
  ⟨runMatrix_countReset _ _ _ _, fun _ => rfl, rfl⟩

/-- Failure oracle making the first viewer's provisioning reject in every
scenario. -/
def failViewerOracle : Nat → Op → Option String :=
  fun _ op =>
    match op with
    | Op.setupViewer _ => some "Connection timeout for viewer"
    | _ => none

/-- C3 counterexample: under the production configuration, when viewer
provisioning fails, the presenter page had already been provisioned (one
open event) yet the run's trace contains no page close at all — the
sibling session was not torn down before control returned to the matrix
loop. -/
theorem c3_counterexample :
    (runAllTests TEST_CONFIG failViewerOracle).1.countP isOpenPresenterEv = 1
    ∧ (runAllTests TEST_CONFIG failViewerOracle).1.countP isCloseEv = 0
    ∧ ((runAllTests TEST_CONFIG failViewerOracle).2.getD 0 default).success = false := by
  decide

/-- C3 (amended): for every scenario body and failure oracle, if the body
aborted before metrics collection finished (as any provisioning failure
forces, since teardown only follows `metricsCollector.stop`), then no
page-close operation at all appears in the scenario's trace: provisioned
sibling pages are leaked, not torn down. -/
theorem c3_no_teardown_before_metrics (n dur : Nat) (oracle : Op → Option String)
    (h : Op.metricsStop ∉ (runOps (singleTestOps n dur) oracle).1) :
    ((runOps (singleTestOps n dur) oracle).1).countP isCloseOp = 0 := by
  have hsplit : singleTestOps n dur
      = ([Op.applyConditions, Op.openPresenterPage, Op.setupPresenter]
          ++ viewerSetupOps n
          ++ [Op.sleepMs 10000, Op.metricsStart, Op.sleepMs dur])
        ++ (Op.metricsStop :: Op.closePresenterPage :: (viewerCloseOps n ++ [Op.resetImpairment])) := by
    simp [singleTestOps, preResetOps]
  rw [hsplit, runOps_append]
  cases h2 : (runOps ([Op.applyConditions, Op.openPresenterPage, Op.setupPresenter]
      ++ viewerSetupOps n
      ++ [Op.sleepMs 10000, Op.metricsStart, Op.sleepMs dur]) oracle).2 with
  | error m =>
    have hle := runOps_countP_le isCloseOp
      ([Op.applyConditions, Op.openPresenterPage, Op.setupPresenter]
        ++ viewerSetupOps n ++ [Op.sleepMs 10000, Op.metricsStart, Op.sleepMs dur]) oracle
    rw [countClose_frontOps] at hle
    simp only []
    omega
  | ok u =>
    exfalso
    apply h
    rw [hsplit, runOps_append, h2]
    simp only []
    have : (runOps (Op.metricsStop :: Op.closePresenterPage
        :: (viewerCloseOps n ++ [Op.resetImpairment])) oracle).1
        = Op.metricsStop :: (runOps (Op.closePresenterPage
            :: (viewerCloseOps n ++ [Op.resetImpairment])) oracle).1 := by
      simp [runOps, Op.canThrow]
    rw [this]
    exact List.mem_append_right _ (List.mem_cons_self _ _)

/-- Concrete instance of C3 (amended): first viewer fails under the
production configuration; the body never reached the metrics stop and no
close happened. -/
theorem c3_no_teardown_before_metrics_witness :
    (Op.metricsStop ∉ (runOps (singleTestOps 1 15000) (failViewerOracle 0)).1)
    ∧ ((runOps (singleTestOps 1 15000) (failViewerOracle 0)).1).countP isCloseOp = 0 :=
  ⟨by decide, c3_no_teardown_before_metrics 1 15000 (failViewerOracle 0) (by decide)⟩

/-- Position of the first occurrence of an operation in a scenario body
(the list's length when absent): the completion order of the awaited
calls. -/
def idxOfOp (target : Op) : List Op → Nat
  | [] => 0
  | o :: rest => if o = target then 0 else idxOfOp target rest + 1

theorem idxOfOp_append_left (target : Op) (l r : List Op) (h : target ∈ l) :
    idxOfOp target (l ++ r) = idxOfOp target l := by
  induction l with
  | nil => simp at h
  | cons o rest ih =>
    by_cases ho : o = target
    · simp [idxOfOp, ho]
    · have hm : target ∈ rest := by
        rcases List.mem_cons.1 h with h1 | h1
        · exact absurd h1.symm ho
        · exact h1
      simp [idxOfOp, ho, ih hm]

theorem idxOfOp_append_right (target : Op) (l r : List Op) (h : target ∉ l) :
    idxOfOp target (l ++ r) = l.length + idxOfOp target r := by
  induction l with
  | nil => simp
  | cons o rest ih =>
    have ho : o ≠ target := fun he => h (by simp [he])
    have hr : target ∉ rest := fun hm => h (by simp [hm])
    simp [idxOfOp, ho, ih hr]
    omega

theorem length_viewerSetupOps (n : Nat) : (viewerSetupOps n).length = 2 * n := by
  induction n with
  | zero => simp [viewerSetupOps]
  | succ n ih => simp [viewerSetupOps, ih]; omega

theorem mem_viewerSetupOps_setup (n i : Nat) :
    Op.setupViewer i ∈ viewerSetupOps n ↔ i < n := by
  induction n with
  | zero => simp [viewerSetupOps]
  | succ n ih =>
    simp [viewerSetupOps, ih]
    omega

theorem mem_viewerSetupOps_open (n i : Nat) :
    Op.openViewerPage i ∈ viewerSetupOps n ↔ i < n := by
  induction n with
  | zero => simp [viewerSetupOps]
  | succ n ih =>
    simp [viewerSetupOps, ih]
    omega

theorem idx_setup_viewerSetupOps (n i : Nat) (h : i < n) :
    idxOfOp (Op.setupViewer i) (viewerSetupOps n) = 2 * i + 1 := by
  induction n with
  | zero => omega
  | succ n ih =>
    by_cases hi : i < n
    · rw [viewerSetupOps,
        idxOfOp_append_left _ _ _ ((mem_viewerSetupOps_setup n i).2 hi)]
      exact ih hi
    · have heq : i = n := by omega
      subst heq
      rw [viewerSetupOps,
        idxOfOp_append_right _ _ _ (by simp [mem_viewerSetupOps_setup])]
      simp [idxOfOp, length_viewerSetupOps]

theorem idx_open_viewerSetupOps (n i : Nat) (h : i < n) :
    idxOfOp (Op.openViewerPage i) (viewerSetupOps n) = 2 * i := by
  induction n with
  | zero => omega
  | succ n ih =>
    by_cases hi : i < n
    · rw [viewerSetupOps,
        idxOfOp_append_left _ _ _ ((mem_viewerSetupOps_open n i).2 hi)]
      exact ih hi
    · have heq : i = n := by omega
      subst heq
      rw [viewerSetupOps,
        idxOfOp_append_right _ _ _ (by simp [mem_viewerSetupOps_open])]
      simp [idxOfOp, length_viewerSetupOps]

theorem idx_setup_singleTestOps (n dur i : Nat) (h : i < n) :
    idxOfOp (Op.setupViewer i) (singleTestOps n dur) = 2 * i + 4 := by
  have hmem : Op.setupViewer i ∈ viewerSetupOps n := (mem_viewerSetupOps_setup n i).2 h
  have hshape : singleTestOps n dur
      = Op.applyConditions :: Op.openPresenterPage :: Op.setupPresenter
          :: (viewerSetupOps n
              ++ ([Op.sleepMs 10000, Op.metricsStart, Op.sleepMs dur,
                   Op.metricsStop, Op.closePresenterPage]
                  ++ (viewerCloseOps n ++ [Op.resetImpairment]))) := by
    simp [singleTestOps, preResetOps]
  rw [hshape]
  simp only [idxOfOp]
  rw [idxOfOp_append_left _ _ _ hmem, idx_setup_viewerSetupOps n i h]
  simp

theorem idx_open_singleTestOps (n dur i : Nat) (h : i < n) :
    idxOfOp (Op.openViewerPage i) (singleTestOps n dur) = 2 * i + 3 := by
  have hmem : Op.openViewerPage i ∈ viewerSetupOps n := (mem_viewerSetupOps_open n i).2 h
  have hshape : singleTestOps n dur
      = Op.applyConditions :: Op.openPresenterPage :: Op.setupPresenter
          :: (viewerSetupOps n
              ++ ([Op.sleepMs 10000, Op.metricsStart, Op.sleepMs dur,
                   Op.metricsStop, Op.closePresenterPage]
                  ++ (viewerCloseOps n ++ [Op.resetImpairment]))) := by
    simp [singleTestOps, preResetOps]
  rw [hshape]
  simp only [idxOfOp]
  rw [idxOfOp_append_left _ _ _ hmem, idx_open_viewerSetupOps n i h]
  simp

/-- Modelled from the spec's words (refinement target for C9, §5 and
§4.2): "the viewer sessions' provisioning step runs concurrently (bounded
parallelism = viewerCount)" — under concurrent provisioning every
viewer's page open is initiated before any viewer's setup completes, so
in the completion order every open precedes every setup. -/
def viewersProvisionedConcurrently (n dur : Nat) : Prop :=
  ∀ i < n, ∀ j < n,
    idxOfOp (Op.openViewerPage i) (singleTestOps n dur)
      < idxOfOp (Op.setupViewer j) (singleTestOps n dur)

/-- C9 counterexample: already with two viewers (15s duration as in the
production configuration), viewer 1's page is opened only after viewer
0's setup completed — provisioning is not concurrent. -/
theorem c9_counterexample : ¬ viewersProvisionedConcurrently 2 15000 := by
  intro h
  have h10 := h 1 (by omega) 0 (by omega)
  revert h10
  decide

/-- C9 (amended): viewer provisioning is strictly sequential — for every
pair of viewers `i < j`, viewer `i`'s setup completes before viewer `j`'s
page is even opened. -/
theorem c9_viewers_provisioned_sequentially (n dur i j : Nat) (hij : i < j) (hj : j < n) :
    idxOfOp (Op.setupViewer i) (singleTestOps n dur)
      < idxOfOp (Op.openViewerPage j) (singleTestOps n dur) := by
  rw [idx_setup_singleTestOps n dur i (lt_trans hij hj), idx_open_singleTestOps n dur j hj]
  omega

/-- Concrete instance of C9 (amended): with two viewers, viewer 0's setup
precedes viewer 1's page open. -/
theorem c9_viewers_provisioned_sequentially_witness :
    (0 < 1 ∧ 1 < 2)
    ∧ idxOfOp (Op.setupViewer 0) (singleTestOps 2 15000)
        < idxOfOp (Op.openViewerPage 1) (singleTestOps 2 15000) :=
  ⟨⟨by decide, by decide⟩,
   c9_viewers_provisioned_sequentially 2 15000 0 1 (by decide) (by decide)⟩

end TestRunner

namespace MetricsCollector

theorem count_zero_filter_pos (l : List Rat) :
    (l.filter (fun x => decide (0 < x))).countP (fun x => decide (x = 0)) = 0 := by
  rw [List.countP_eq_zero]
  intro x hx
  have h0 : (0 : Rat) < x := by
    have := (List.mem_filter.1 hx).2
    simpa using this
  simpa using h0.ne'

/-- C5: on every collection tick, zero latency and jitter readings are
discarded (the zero-count of the recorded series never grows) while a
zero packetsLost reading is retained; consequently strict positivity of
the recorded latency and jitter series and nonnegativity of the recorded
packetsLost series are invariants of collection. -/
theorem c5_zero_sample_policy (st : MetricsState) (r : TickReadings) :
    (((collectMetrics st r).latencySamples.countP (fun x => decide (x = 0)))
        = st.latencySamples.countP (fun x => decide (x = 0)))
    ∧ (((collectMetrics st r).jitterSamples.countP (fun x => decide (x = 0)))
        = st.jitterSamples.countP (fun x => decide (x = 0)))
    ∧ ((0 : Rat) ∈ r.packetsLostReads → (0 : Rat) ∈ (collectMetrics st r).packetsLostSamples)
    ∧ ((∀ x ∈ st.latencySamples, 0 < x) →
        ∀ x ∈ (collectMetrics st r).latencySamples, 0 < x)
    ∧ ((∀ x ∈ st.jitterSamples, 0 < x) →
        ∀ x ∈ (collectMetrics st r).jitterSamples, 0 < x)
    ∧ ((∀ x ∈ st.packetsLostSamples, 0 ≤ x) →
        ∀ x ∈ (collectMetrics st r).packetsLostSamples, 0 ≤ x) := by
  refine ⟨?_, ?_, ?_, ?_, ?_, ?_⟩
  · simp [collectMetrics, List.countP_append, count_zero_filter_pos]
  · simp [collectMetrics, List.countP_append, count_zero_filter_pos]
  · intro h
    simp only [collectMetrics, List.mem_append]
    exact Or.inr (List.mem_filter.2 ⟨h, by simp⟩)
  · intro hinv x hx
    rcases List.mem_append.1 hx with hl | hl
    · exact hinv x hl
    · have := (List.mem_filter.1 hl).2
      simpa using this
  · intro hinv x hx
    rcases List.mem_append.1 hx with hl | hl
    · exact hinv x hl
    · have := (List.mem_filter.1 hl).2
      simpa using this
  · intro hinv x hx
    rcases List.mem_append.1 hx with hl | hl
    · exact hinv x hl
    · have := (List.mem_filter.1 hl).2
      simpa using this

/-- Concrete instance of C5: a tick carrying latency readings 0 and 12,
a jitter reading 0 and a packetsLost reading 0 on the fresh collector. -/
theorem c5_zero_sample_policy_witness :
    ((0 : Rat) ∈ ({ timestamp := 0, system := none, bandwidthUsage := 0
                    latencyReads := [0, 12], jitterReads := [0]
                    packetsLostReads := [0] } : TickReadings).packetsLostReads)
    ∧ (0 : Rat) ∈ (collectMetrics initialState
        { timestamp := 0, system := none, bandwidthUsage := 0
          latencyReads := [0, 12], jitterReads := [0]
          packetsLostReads := [0] }).packetsLostSamples :=
  ⟨by decide,
   (c5_zero_sample_policy initialState
      { timestamp := 0, system := none, bandwidthUsage := 0
        latencyReads := [0, 12], jitterReads := [0]
        packetsLostReads := [0] }).2.2.1 (by decide)⟩

/-- C6 counterexample: with zero collected samples, the cpu aggregate
returned by `stop` keeps the constructor's sentinel `min = 100`, not the
neutral default 0 claimed for every aggregate field. -/
theorem c6_counterexample :
    (stop initialState).cpu.min = 100
    ∧ ((100 : Rat) ≠ 0)
    ∧ (stop initialState).sampleCount = 0 := by
  refine ⟨rfl, by norm_num, rfl⟩

/-- C6 (amended): when every sample series is empty, `stop` reduces every
aggregate to the constructor's initial value — 0 for each average and
max, 0 for the latency and jitter min, but 100 (the sentinel initializer)
for the cpu min — and records the tick count so a consumer can
distinguish "no signal" from "measured zero". -/
theorem c6_empty_metric_defaults (st : MetricsState)
    (hcpu : st.cpuSamples = []) (hmem : st.memorySamples = [])
    (hbw : st.bandwidthSamples = []) (hlat : st.latencySamples = [])
    (hjit : st.jitterSamples = []) (hpl : st.packetsLostSamples = []) :
    (stop st).cpu = { average := 0, min := 100, max := 0 }
    ∧ (stop st).latency = { average := 0, min := 0, max := 0 }
    ∧ (stop st).jitter = { average := 0, min := 0, max := 0 }
    ∧ (stop st).memoryAverage = 0
    ∧ (stop st).memoryMax = 0
    ∧ (stop st).bandwidthAverage = 0
    ∧ (stop st).bandwidthTotal = 0
    ∧ (stop st).bandwidthPeak = 0
    ∧ (stop st).packetsLostTotal = 0
    ∧ (stop st).sampleCount = st.timestamps.length := by
  simp [stop, hcpu, hmem, hbw, hlat, hjit, hpl]

/-- Concrete instance of C6 (amended): three empty-handed ticks reduce to
the defaults with `sampleCount = 3`. -/
theorem c6_empty_metric_defaults_witness :
    (stop { initialState with timestamps := [0, 1000, 2000] }).cpu
        = { average := 0, min := 100, max := 0 }
    ∧ (stop { initialState with timestamps := [0, 1000, 2000] }).sampleCount = 3 :=
  ⟨(c6_empty_metric_defaults { initialState with timestamps := [0, 1000, 2000] }
      rfl rfl rfl rfl rfl rfl).1,
   ((c6_empty_metric_defaults { initialState with timestamps := [0, 1000, 2000] }
      rfl rfl rfl rfl rfl rfl).2.2.2.2.2.2.2.2.2).trans rfl⟩

/-- C7: in relay (SFU) mode — the presenter owning a mediasoup send
transport — the jitter read is 0 so no jitter sample is ever collected,
and the latency read returns the presenter's own send-transport
round-trip time whenever that probe yields a positive value, falling back
to the viewer-side chain otherwise. -/
theorem c7_relay_adapter (p : PresenterEnv) (v : ViewerEnv)
    (reports : List StatsReport)
    (hsfu : p.mediasoupSendTransport = some reports) :
    (getJitter p v = 0)
    ∧ (∀ (st : MetricsState) (r : TickReadings),
        (∀ x ∈ r.jitterReads, x = getJitter p v) →
        (collectMetrics st r).jitterSamples = st.jitterSamples)
    ∧ (∀ rtt, presenterLatencyProbe p = some rtt → 0 < rtt → getLatency p v = rtt)
    ∧ (presenterLatencyProbe p = none → getLatency p v = viewerLatencyProbe v)
    ∧ (∀ rtt, presenterLatencyProbe p = some rtt → ¬ 0 < rtt →
        getLatency p v = viewerLatencyProbe v) := by
  have hz : getJitter p v = 0 := by simp [getJitter, hsfu]
  refine ⟨hz, ?_, ?_, ?_, ?_⟩
  · intro st r hall
    have hfil : r.jitterReads.filter (fun x => decide (0 < x)) = [] := by
      rw [List.filter_eq_nil_iff]
      intro x hx
      rw [hall x hx, hz]
      simp
    simp [collectMetrics, hfil]
  · intro rtt hp hpos
    simp [getLatency, hp, hpos]
  · intro hp
    simp [getLatency, hp]
  · intro rtt hp hpos
    simp [getLatency, hp, hpos]

/-- Concrete instance of C7: a presenter owning a send transport whose
stats carry no matching report, a viewer with no stats at all: jitter
reads 0 and latency falls back to the viewer chain. -/
theorem c7_relay_adapter_witness :
    (getJitter { mediasoupSendTransport := some [] }
        { allPeerConnections := [], mediasoupConsumers := [], mediasoupTransports := [] } = 0)
    ∧ (getLatency { mediasoupSendTransport := some [] }
        { allPeerConnections := [], mediasoupConsumers := [], mediasoupTransports := [] }
      = viewerLatencyProbe
          { allPeerConnections := [], mediasoupConsumers := [], mediasoupTransports := [] }) := by
  have h := c7_relay_adapter
    { mediasoupSendTransport := some [] }
    { allPeerConnections := [], mediasoupConsumers := [], mediasoupTransports := [] }
    [] rfl
  exact ⟨h.1, h.2.2.2.1 rfl⟩

theorem listSum_nonneg (l : List Rat) (h : ∀ x ∈ l, 0 ≤ x) : 0 ≤ listSum l := by
  induction l with
  | nil => simp [listSum]
  | cons a rest ih =>
    have := h a (by simp)
    have hr := ih (fun x hx => h x (by simp [hx]))
    simp only [listSum]
    linarith

theorem listSum_le (l : List Rat) (c : Rat) (h : ∀ x ∈ l, x ≤ c) :
    listSum l ≤ c * l.length := by
  induction l with
  | nil => simp [listSum]
  | cons a rest ih =>
    have := h a (by simp)
    have hr := ih (fun x hx => h x (by simp [hx]))
    simp only [listSum, List.length_cons]
    push_cast
    linarith

theorem foldl_max_le (l : List Rat) (acc c : Rat) (hacc : acc ≤ c)
    (h : ∀ x ∈ l, x ≤ c) : l.foldl max acc ≤ c := by
  induction l generalizing acc with
  | nil => simpa using hacc
  | cons a rest ih =>
    simp only [List.foldl_cons]
    exact ih (max acc a) (max_le hacc (h a (by simp))) (fun x hx => h x (by simp [hx]))

theorem le_foldl_max (l : List Rat) (acc : Rat) : acc ≤ l.foldl max acc := by
  induction l generalizing acc with
  | nil => simp
  | cons a rest ih =>
    simp only [List.foldl_cons]
    exact le_trans (le_max_left acc a) (ih (max acc a))

/-- C10: every cpu value `getSystemMetrics` can produce lies in [0, 100]
(the raw percentage is clamped and the baseline measurement is 0); the
collector preserves that range invariant on its cpu series; and on a
nonempty in-range series, the cpu average and max returned by `stop` lie
in [0, 100]. -/
theorem c10_cpu_bounds :
    (∀ (last : Option (Rat × Rat)) (td : Option Rat) (t : Rat) (heap : Option Rat)
        (c m : Rat), (getSystemMetrics last td t heap).1 = some (c, m) → 0 ≤ c ∧ c ≤ 100)
    ∧ (∀ (st : MetricsState) (r : TickReadings),
        (∀ x ∈ st.cpuSamples, 0 ≤ x ∧ x ≤ 100) →
        (∀ cm, r.system = some cm → 0 ≤ cm.1 ∧ cm.1 ≤ 100) →
        ∀ x ∈ (collectMetrics st r).cpuSamples, 0 ≤ x ∧ x ≤ 100)
    ∧ (∀ st : MetricsState, st.cpuSamples ≠ [] →
        (∀ x ∈ st.cpuSamples, 0 ≤ x ∧ x ≤ 100) →
        (0 ≤ (stop st).cpu.average ∧ (stop st).cpu.average ≤ 100)
          ∧ (0 ≤ (stop st).cpu.max ∧ (stop st).cpu.max ≤ 100)) := by
  refine ⟨?_, ?_, ?_⟩
  · intro last td t heap c m h
    cases td with
    | none => simp [getSystemMetrics] at h
    | some tdv =>
      cases last with
      | none =>
        simp only [getSystemMetrics, Option.some.injEq, Prod.mk.injEq] at h
        rw [← h.1]
        norm_num
      | some pair =>
        simp only [getSystemMetrics, Option.some.injEq, Prod.mk.injEq] at h
        rw [← h.1]
        constructor
        · exact le_min (by norm_num) (le_max_left 0 _)
        · exact min_le_left _ _
  · intro st r hinv hsys x hx
    rcases List.mem_append.1 hx with hl | hl
    · exact hinv x hl
    · cases hs : r.system with
      | none => rw [hs] at hl; simp at hl
      | some cm =>
        rw [hs] at hl
        simp only [List.mem_singleton] at hl
        rw [hl]
        exact hsys cm hs
  · intro st hne hinv
    have hnonneg : ∀ x ∈ st.cpuSamples, (0 : Rat) ≤ x := fun x hx => (hinv x hx).1
    have hle : ∀ x ∈ st.cpuSamples, x ≤ (100 : Rat) := fun x hx => (hinv x hx).2
    have hlen : (0 : Rat) < (st.cpuSamples.length : Rat) := by
      have : st.cpuSamples.length ≠ 0 := by
        intro hz
        exact hne (List.length_eq_zero.1 hz)
      have h1 : 0 < st.cpuSamples.length := Nat.pos_of_ne_zero this
      exact_mod_cast h1
    have hsum0 : (0 : Rat) ≤ listSum st.cpuSamples := listSum_nonneg _ hnonneg
    have hsum1 : listSum st.cpuSamples ≤ 100 * st.cpuSamples.length := listSum_le _ _ hle
    have hstop : (stop st).cpu
        = { average := listSum st.cpuSamples / (st.cpuSamples.length : Rat)
            min := listMin st.cpuSamples, max := listMax st.cpuSamples } := by
      simp [stop, hne]
    rw [hstop]
    refine ⟨⟨div_nonneg hsum0 (le_of_lt hlen), ?_⟩, ?_⟩
    · rw [div_le_iff₀ hlen]
      linarith [hsum1]
    · cases hl : st.cpuSamples with
      | nil => exact absurd hl hne
      | cons a rest =>
        have ha := hinv a (by rw [hl]; simp)
        have hr : ∀ x ∈ rest, x ≤ (100 : Rat) := fun x hx =>
          (hinv x (by rw [hl]; simp [hx])).2
        constructor
        · simp only [listMax]
          exact le_trans ha.1 (le_foldl_max rest a)
        · simp only [listMax]
          exact foldl_max_le rest a 100 ha.2 hr

/-- The collector state used for the concrete C10 instance: one in-range
cpu sample. -/
def cpuWitnessState : MetricsState := { initialState with cpuSamples := [50] }

/-- The tick used for the concrete C10 instance. -/
def cpuWitnessTick : TickReadings :=
  { timestamp := 0, system := some (50, 10), bandwidthUsage := 0
    latencyReads := [], jitterReads := [], packetsLostReads := [] }

/-- Concrete instance of C10: the baseline measurement's cpu is in range,
the tick keeps the series in range, and the reduced average and max of
the singleton series are in range. -/
theorem c10_cpu_bounds_witness :
    ((0 : Rat) ≤ 0 ∧ (0 : Rat) ≤ 100)
    ∧ (∀ x ∈ (collectMetrics cpuWitnessState cpuWitnessTick).cpuSamples, 0 ≤ x ∧ x ≤ 100)
    ∧ ((0 ≤ (stop cpuWitnessState).cpu.average ∧ (stop cpuWitnessState).cpu.average ≤ 100)
        ∧ (0 ≤ (stop cpuWitnessState).cpu.max ∧ (stop cpuWitnessState).cpu.max ≤ 100)) :=
  ⟨c10_cpu_bounds.1 none (some 1) 0 none 0 0 rfl,
   c10_cpu_bounds.2.1 cpuWitnessState cpuWitnessTick (by decide)
     (fun cm hcm => by
       simp only [cpuWitnessTick, Option.some.injEq] at hcm
       rw [← hcm]
       decide),
   c10_cpu_bounds.2.2 cpuWitnessState (by decide) (by decide)⟩

end MetricsCollector

namespace NetworkController

/-- C8: `applyConditions` clears the path before installing new rules, so
its resulting state is independent of the prior state (applying twice
equals applying once), and a failed partial application leaves either a
clear path or exactly the new netem rule — never a mix with old rules;
`reset` never raises, clears the path, and a second reset is a no-op. -/
theorem c8_impairment_idempotent (st st' : TcState) (bandwidth : String)
    (packetLoss : Nat) (latency : String) (fail : Nat → Option String) :
    ((applyConditions st bandwidth packetLoss latency fail).1
        = (applyConditions st' bandwidth packetLoss latency fail).1)
    ∧ (applyConditions (applyConditions st bandwidth packetLoss latency fail).1
          bandwidth packetLoss latency fail
        = applyConditions st bandwidth packetLoss latency fail)
    ∧ (∀ msg, (applyConditions st bandwidth packetLoss latency fail).2 = Except.error msg →
        (applyConditions st bandwidth packetLoss latency fail).1 = none
          ∨ (applyConditions st bandwidth packetLoss latency fail).1
              = some { latency := latency, lossPercent := packetLoss, tbfRate := none })
    ∧ (reset none = (none, Except.ok ()))
    ∧ (∀ s : TcState, (reset s).2 = Except.ok ()
        ∧ reset (reset s).1 = reset s) := by
  refine ⟨rfl, rfl, ?_, rfl, fun s => ⟨rfl, rfl⟩⟩
  intro msg hmsg
  cases hf1 : fail 1 with
  | some m => simp [applyConditions, hf1]
  | none =>
    by_cases hbw : bandwidth ≠ "unlimited"
    · cases hf2 : fail 2 with
      | some m => simp [applyConditions, hf1, hf2, hbw]
      | none =>
        exfalso
        simp [applyConditions, hf1, hf2, hbw] at hmsg
    · exfalso
      simp [applyConditions, hf1, hbw] at hmsg

/-- Concrete instance of C8: with a failing tbf command the application
errors out yet leaves exactly the fresh netem rule, no mixed state. -/
theorem c8_impairment_idempotent_witness :
    ((applyConditions (some { latency := "50ms", lossPercent := 9, tbfRate := some "1mbit" })
        "5mbit" 5 "10ms" (fun i => if i = 2 then some "tbf failed" else none)).2
      = Except.error "tbf failed")
    ∧ ((applyConditions (some { latency := "50ms", lossPercent := 9, tbfRate := some "1mbit" })
          "5mbit" 5 "10ms" (fun i => if i = 2 then some "tbf failed" else none)).1 = none
        ∨ (applyConditions (some { latency := "50ms", lossPercent := 9, tbfRate := some "1mbit" })
            "5mbit" 5 "10ms" (fun i => if i = 2 then some "tbf failed" else none)).1
          = some { latency := "10ms", lossPercent := 5, tbfRate := none }) :=
  ⟨rfl,
   (c8_impairment_idempotent
      (some { latency := "50ms", lossPercent := 9, tbfRate := some "1mbit" })
      (some { latency := "50ms", lossPercent := 9, tbfRate := some "1mbit" })
      "5mbit" 5 "10ms" (fun i => if i = 2 then some "tbf failed" else none)).2.2.1
     "tbf failed" rfl⟩

end NetworkController
